import Mathlib

/-!
# Verification of the dynamic-form application

A shallow embedding of the schema-driven form renderer: the data model
(schema, value map, error map), the validation engine (`validateField`,
`sectionValidate`), the orchestrator's event handlers (`handleFieldChange`,
`handlePrevious`, `handleNext`, `handleSubmit`), the checkbox-group toggle
(`handleCheckboxGroupChange`), value-map initialisation (`initialValues`),
the submission summary (`renderSummary`), and the login gate (`loginSubmit`).

Value maps and error maps are plain JavaScript objects in the source; they
are embedded as association lists with unique keys, where assignment
overwrites in place and otherwise appends (matching JS key insertion order),
and `delete` removes the key.  JS truthiness is embedded explicitly: a
numeric bound of `0`, an empty string, `undefined` and `false` are falsy.
-/

namespace DynForm

/-- A field's current value: string for text-like / dropdown / radio fields,
a list of strings for an option-bearing checkbox group, a boolean for a
single checkbox. -/
inductive Value where
  | str (s : String)
  | list (l : List String)
  | bool (b : Bool)
deriving Repr, DecidableEq

/-- One entry of a choice set (`options` array element). -/
structure OptionItem where
  value : String
  label : String
deriving Repr, DecidableEq

/-- The optional `validation` object of a field, carrying a custom message. -/
structure ValidationRule where
  message : String
deriving Repr, DecidableEq

/-- A form field descriptor, as described by the schema. -/
structure FormField where
  fieldId : String
  label : String
  type : String
  required : Bool
  minLength : Option Nat := none
  maxLength : Option Nat := none
  options : Option (List OptionItem) := none
  validation : Option ValidationRule := none
deriving Repr, DecidableEq

/-- One section of the form. -/
structure Section where
  sectionId : String
  title : String
  description : Option String := none
  fields : List FormField
deriving Repr, DecidableEq

/-- The fetched form schema (`formData.form`). -/
structure FormSchema where
  formTitle : String
  sections : List Section
deriving Repr, DecidableEq

/-- Lookup in a JS-object-like association list (`obj[key]`); `none` models
`undefined`. -/
def mlookup {α : Type} : List (String × α) → String → Option α
  | [], _ => none
  | (k, v) :: rest, key => if k = key then some v else mlookup rest key

/-- JS object assignment `obj[key] = v`: overwrite in place when the key is
present, append otherwise. -/
def minsert {α : Type} : List (String × α) → String → α → List (String × α)
  | [], key, v => [(key, v)]
  | (k, w) :: rest, key, v =>
    if k = key then (key, v) :: rest else (k, w) :: minsert rest key v

/-- JS `delete obj[key]`. -/
def merase {α : Type} : List (String × α) → String → List (String × α)
  | [], _ => []
  | (k, w) :: rest, key =>
    if k = key then merase rest key else (k, w) :: merase rest key

/-- The value map `formValues`, keyed by fieldId. -/
abbrev FormValues := List (String × Value)

/-- The error map `formErrors`, keyed by fieldId. -/
abbrev FormErrors := List (String × String)

/-- The orchestrator's React state relevant to the claims. -/
structure FormState where
  currentSectionIndex : Nat
  formValues : FormValues
  formErrors : FormErrors
  showSubmissionModal : Bool
deriving Repr, DecidableEq

/-- The `required` emptiness test of `validateField`:
`value === undefined || value === '' || (Array.isArray(value) && value.length === 0)`. -/
def requiredMissing : Option Value → Bool
  | none => true
  | some (Value.str s) => s = ""
  | some (Value.list l) => l.isEmpty
  | some (Value.bool _) => false

/-- The second guard of `validateField`: `value === undefined || value === ''`. -/
def isAbsentOrEmptyStr : Option Value → Bool
  | none => true
  | some (Value.str s) => s = ""
  | some _ => false

/-- `field.validation?.message || 'This field is required'`: the custom
message is used only when the `validation` object exists and its message is a
non-empty (truthy) string. -/
def requiredMessage (field : FormField) : String :=
  match field.validation with
  | some vr => if vr.message = "" then "This field is required" else vr.message
  | none => "This field is required"

/-- `field.minLength && typeof value === 'string' && value.length < field.minLength`:
a `minLength` of `0` is falsy in JS and disables the check. -/
def minLengthError (field : FormField) (value : Option Value) : Option String :=
  match field.minLength, value with
  | some n, some (Value.str s) =>
    if n ≠ 0 ∧ s.length < n then
      some ("Minimum length is " ++ toString n ++ " characters")
    else none
  | _, _ => none

/-- `field.maxLength && typeof value === 'string' && value.length > field.maxLength`:
a `maxLength` of `0` is falsy in JS and disables the check. -/
def maxLengthError (field : FormField) (value : Option Value) : Option String :=
  match field.maxLength, value with
  | some n, some (Value.str s) =>
    if n ≠ 0 ∧ s.length > n then
      some ("Maximum length is " ++ toString n ++ " characters")
    else none
  | _, _ => none

/-- The per-field rule `validateField` of `DynamicForm.tsx`: an empty string
means "no error" (the source returns `''`). -/
def validateField (values : FormValues) (field : FormField) : String :=
  let value := mlookup values field.fieldId
  if field.required && requiredMissing value then
    requiredMessage field
  else if isAbsentOrEmptyStr value then
    ""
  else
    match minLengthError field value with
    | some m => m
    | none =>
      match maxLengthError field value with
      | some m => m
      | none => ""

/-- The body of `validateSection`: fold over the section's fields, starting
from `isValid = true` and a fresh empty `newErrors`, recording each non-empty
message under the field's id and clearing the flag. -/
def sectionValidate (values : FormValues) (fields : List FormField) :
    Bool × FormErrors :=
  fields.foldl
    (fun acc f =>
      let msg := validateField values f
      if msg = "" then acc else (false, minsert acc.2 f.fieldId msg))
    (true, [])

/-- `validateSection(sectionIndex)` acting on the orchestrator state: reads
the section at the index, validates its fields against the current values,
replaces `formErrors` wholesale with the fresh map and returns the flag.
`none` models the TypeError thrown when the index is out of range (the state
is then left untouched by the caller). -/
def validateSectionRun (schema : FormSchema) (st : FormState) (idx : Nat) :
    Option (Bool × FormState) :=
  (schema.sections[idx]?).map (fun sec =>
    let r := sectionValidate st.formValues sec.fields
    (r.1, { st with formErrors := r.2 }))

/-- `handleFieldChange`: store the new value under the fieldId and, when the
field currently has a truthy error entry, delete that entry. -/
def handleFieldChange (st : FormState) (fieldId : String) (v : Value) :
    FormState :=
  let values := minsert st.formValues fieldId v
  let errors :=
    match mlookup st.formErrors fieldId with
    | some msg => if msg = "" then st.formErrors else merase st.formErrors fieldId
    | none => st.formErrors
  { st with formValues := values, formErrors := errors }

/-- `handlePrevious`: decrement the section index when it is positive; no
validation, no change to values or errors. -/
def handlePrevious (st : FormState) : FormState :=
  if st.currentSectionIndex > 0 then
    { st with currentSectionIndex := st.currentSectionIndex - 1 }
  else st

/-- The `disabled={currentIndex === 0}` attribute of the Previous button in
`FormSection`. -/
def previousDisabled (currentIndex : Nat) : Bool :=
  currentIndex = 0

/-- `handleNext`: validate the current section (replacing the error map);
when valid and not on the last section, advance the index. -/
def handleNext (schema : FormSchema) (st : FormState) : FormState :=
  match validateSectionRun schema st st.currentSectionIndex with
  | none => st
  | some (ok, st1) =>
    if ok && st.currentSectionIndex < schema.sections.length - 1 then
      { st1 with currentSectionIndex := st.currentSectionIndex + 1 }
    else st1

/-- `handleSubmit`: validate the current section (replacing the error map);
when valid, open the submission modal.  Nothing is transmitted: the only
effects are on the local state. -/
def handleSubmit (schema : FormSchema) (st : FormState) : FormState :=
  match validateSectionRun schema st st.currentSectionIndex with
  | none => st
  | some (ok, st1) =>
    if ok then { st1 with showSubmissionModal := true } else st1

/-- Value-map initialisation after the schema fetch (`fetchFormData`): an
empty list for an option-bearing checkbox, `false` for a plain checkbox, the
empty string otherwise.  An empty `options` array is a truthy JS object, so
presence (`isSome`) is the faithful test. -/
def initialValues (schema : FormSchema) : FormValues :=
  schema.sections.foldl
    (fun m sec =>
      sec.fields.foldl
        (fun m2 f =>
          if f.type = "checkbox" ∧ f.options.isSome then
            minsert m2 f.fieldId (Value.list [])
          else if f.type = "checkbox" ∧ ¬ f.options.isSome then
            minsert m2 f.fieldId (Value.bool false)
          else
            minsert m2 f.fieldId (Value.str ""))
        m)
    []

/-- `handleCheckboxGroupChange` of `DynamicField.tsx`: remove the option
value when present (`filter`), append it at the end when absent. -/
def handleCheckboxGroupChange (currentValues : List String)
    (optionValue : String) : List String :=
  if currentValues.contains optionValue then
    currentValues.filter (fun v => v ≠ optionValue)
  else
    currentValues ++ [optionValue]

/-- The value formatting of `renderSubmissionModal`:
`Array.isArray(value) ? value.join(', ') : typeof value === 'boolean' ? (value ? 'Yes' : 'No') : value || '-'`. -/
def formatValue : Option Value → String
  | some (Value.list l) => String.intercalate ", " l
  | some (Value.bool b) => if b then "Yes" else "No"
  | some (Value.str s) => if s = "" then "-" else s
  | none => "-"

/-- The submission modal's content: for every section, every field's label
paired with its formatted current value. -/
def renderSummary (schema : FormSchema) (values : FormValues) :
    List (String × List (String × String)) :=
  schema.sections.map (fun sec =>
    (sec.title,
     sec.fields.map (fun f => (f.label, formatValue (mlookup values f.fieldId)))))

/-- The login identity collected by the auth gate. -/
structure User where
  rollNumber : String
  name : String
deriving Repr, DecidableEq

/-- What the login form's submit handler does before any asynchronous work:
either show an inline error, or proceed to the remote `createUser` call. -/
inductive LoginAction where
  | showError (msg : String)
  | callCreateUser (u : User)
deriving Repr, DecidableEq

/-- `handleSubmit` of `LoginForm.tsx`:
`if (!user.rollNumber.trim() || !user.name.trim())` shows the inline error
and returns without any network call; otherwise `createUser(user)` is
invoked. -/
def loginSubmit (u : User) : LoginAction :=
  if u.rollNumber.trim = "" ∨ u.name.trim = "" then
    LoginAction.showError "Both Roll Number and Name are required"
  else
    LoginAction.callCreateUser u

/-! ## Claim-side definitions

Definitions written from the specification's wording, to be compared with
the definitions embedded from the source. -/

/-- The per-field rule as the specification words it: the custom validation
message is used whenever the `validation` object is present, and the
`minLength` / `maxLength` checks apply whenever the bound is set (no
truthiness exception for a zero bound). -/
def validateFieldSpec (values : FormValues) (field : FormField) : String :=
  let value := mlookup values field.fieldId
  if field.required = true ∧
      (value = none ∨ value = some (Value.str "") ∨ value = some (Value.list [])) then
    match field.validation with
    | some vr => vr.message
    | none => "This field is required"
  else if value = none ∨ value = some (Value.str "") then ""
  else
    match value with
    | some (Value.str s) =>
      match field.minLength with
      | some n =>
        if s.length < n then "Minimum length is " ++ toString n ++ " characters"
        else
          match field.maxLength with
          | some k =>
            if s.length > k then "Maximum length is " ++ toString k ++ " characters"
            else ""
          | none => ""
      | none =>
        match field.maxLength with
        | some k =>
          if s.length > k then "Maximum length is " ++ toString k ++ " characters"
          else ""
        | none => ""
    | _ => ""

/-- The per-field rule as amended: identical to the specification's wording
except that a custom validation message is used only when non-empty (an
empty message falls back to the default), and a `minLength` / `maxLength`
bound of `0` is treated as unset (JS falsiness of `0`). -/
def validateFieldAmended (values : FormValues) (field : FormField) : String :=
  let value := mlookup values field.fieldId
  if field.required = true ∧
      (value = none ∨ value = some (Value.str "") ∨ value = some (Value.list [])) then
    match field.validation with
    | some vr => if vr.message = "" then "This field is required" else vr.message
    | none => "This field is required"
  else if value = none ∨ value = some (Value.str "") then ""
  else
    match value with
    | some (Value.str s) =>
      match field.minLength with
      | some n =>
        if n ≠ 0 ∧ s.length < n then
          "Minimum length is " ++ toString n ++ " characters"
        else
          match field.maxLength with
          | some k =>
            if k ≠ 0 ∧ s.length > k then
              "Maximum length is " ++ toString k ++ " characters"
            else ""
          | none => ""
      | none =>
        match field.maxLength with
        | some k =>
          if k ≠ 0 ∧ s.length > k then
            "Maximum length is " ++ toString k ++ " characters"
          else ""
        | none => ""
    | _ => ""

/-- The loop body of `sectionValidate`, named so the fold lemmas below can
refer to it; definitionally equal to the inline body of `sectionValidate`. -/
def svStep (values : FormValues) (acc : Bool × FormErrors) (f : FormField) :
    Bool × FormErrors :=
  let msg := validateField values f
  if msg = "" then acc else (false, minsert acc.2 f.fieldId msg)

/-- The per-field error entry contributed to the fresh error map by
`sectionValidate`. -/
def fieldError (values : FormValues) (f : FormField) : Option (String × String) :=
  if validateField values f = "" then none
  else some (f.fieldId, validateField values f)

/-- The type-appropriate initial value, as the specification words it. -/
def initValueFor (f : FormField) : Value :=
  if f.type = "checkbox" ∧ f.options.isSome then Value.list []
  else if f.type = "checkbox" then Value.bool false
  else Value.str ""

/-- All fields of the schema, in document order. -/
def schemaFields (schema : FormSchema) : List FormField :=
  schema.sections.foldr (fun sec acc => sec.fields ++ acc) []

/-- The login submit as the specification words it: the remote call is made
exactly when both trimmed fields are non-empty, otherwise the fixed inline
error is shown and no call is issued. -/
def loginSubmitSpec (u : User) : LoginAction :=
  if u.rollNumber.trim ≠ "" ∧ u.name.trim ≠ "" then
    LoginAction.callCreateUser u
  else
    LoginAction.showError "Both Roll Number and Name are required"

/-! ## Concrete fixtures

A small schema (the spec's own scenario: a required `name` field with
`minLength := 2`, followed by a second section) and a few concrete states,
used to evaluate the theorems on closed inputs. -/

def fieldName : FormField :=
  { fieldId := "name", label := "Name", type := "text", required := true,
    minLength := some 2 }

def fieldAge : FormField :=
  { fieldId := "age", label := "Age", type := "text", required := false }

def fieldHobbies : FormField :=
  { fieldId := "hobbies", label := "Hobbies", type := "checkbox",
    required := false,
    options := some [{ value := "chess", label := "Chess" },
                     { value := "golf", label := "Golf" }] }

def fieldAgree : FormField :=
  { fieldId := "agree", label := "Agree", type := "checkbox", required := false }

def fieldAgreeRequired : FormField :=
  { fieldId := "agree", label := "Agree", type := "checkbox", required := true }

def sectionOne : Section :=
  { sectionId := "s1", title := "Section 1", fields := [fieldName] }

def sectionTwo : Section :=
  { sectionId := "s2", title := "Section 2",
    fields := [fieldAge, fieldHobbies, fieldAgree] }

def schemaW : FormSchema :=
  { formTitle := "Test Form", sections := [sectionOne, sectionTwo] }

/-- First section, `name` holds `"A"` (too short), and a stale error entry
for an unrelated field is present. -/
def stateA : FormState :=
  { currentSectionIndex := 0, formValues := [("name", Value.str "A")],
    formErrors := [("stale", "old error")], showSubmissionModal := false }

/-- First section, `name` holds `"Al"` (valid). -/
def stateAl : FormState :=
  { currentSectionIndex := 0, formValues := [("name", Value.str "Al")],
    formErrors := [], showSubmissionModal := false }

/-- Last section, every field valid. -/
def stateLast : FormState :=
  { currentSectionIndex := 1,
    formValues := [("name", Value.str "Al"), ("age", Value.str ""),
                   ("hobbies", Value.list ["chess"]), ("agree", Value.bool true)],
    formErrors := [], showSubmissionModal := false }

/-- A state whose `name` field currently carries an error. -/
def stateWithError : FormState :=
  { currentSectionIndex := 0, formValues := [("name", Value.str "")],
    formErrors := [("name", "This field is required")],
    showSubmissionModal := false }

/-- A non-required text field with `maxLength := 0`. -/
def fieldMaxZero : FormField :=
  { fieldId := "bio", label := "Bio", type := "text", required := false,
    maxLength := some 0 }

def valuesMaxZero : FormValues := [("bio", Value.str "ab")]

def valuesAgreeFalse : FormValues := [("agree", Value.bool false)]

/-! ## Association-list lemmas -/

theorem mlookup_minsert_self {α : Type} (m : List (String × α)) (k : String)
    (v : α) : mlookup (minsert m k v) k = some v := by
  induction m with
  | nil => simp [minsert, mlookup]
  | cons p rest ih =>
    obtain ⟨k2, w⟩ := p
    by_cases h : k2 = k
    · simp [minsert, h, mlookup]
    · simp [minsert, h, mlookup, ih]

theorem mlookup_minsert_ne {α : Type} (m : List (String × α)) (k k2 : String)
    (v : α) (h : k2 ≠ k) : mlookup (minsert m k v) k2 = mlookup m k2 := by
  induction m with
  | nil => simp [minsert, mlookup, h.symm]
  | cons p rest ih =>
    obtain ⟨k3, w⟩ := p
    by_cases h3 : k3 = k
    · subst h3
      simp [minsert, mlookup, h.symm]
    · simp [minsert, h3, mlookup, ih]

theorem mlookup_merase_self {α : Type} (m : List (String × α)) (k : String) :
    mlookup (merase m k) k = none := by
  induction m with
  | nil => simp [merase, mlookup]
  | cons p rest ih =>
    obtain ⟨k2, w⟩ := p
    by_cases h : k2 = k
    · simp [merase, h, ih]
    · simp [merase, h, mlookup, ih]

theorem mlookup_merase_ne {α : Type} (m : List (String × α)) (k k2 : String)
    (h : k2 ≠ k) : mlookup (merase m k) k2 = mlookup m k2 := by
  induction m with
  | nil => simp [merase]
  | cons p rest ih =>
    obtain ⟨k3, w⟩ := p
    by_cases h3 : k3 = k
    · subst h3
      simp [merase, mlookup, h.symm, ih]
    · simp [merase, h3, mlookup, ih]

theorem mlookup_append {α : Type} (m1 m2 : List (String × α)) (k : String) :
    mlookup (m1 ++ m2) k =
      match mlookup m1 k with
      | some v => some v
      | none => mlookup m2 k := by
  induction m1 with
  | nil => simp [mlookup]
  | cons p rest ih =>
    obtain ⟨k2, w⟩ := p
    by_cases h : k2 = k
    · simp [mlookup, h]
    · simp [mlookup, h, ih]

theorem minsert_of_lookup_none {α : Type} (m : List (String × α)) (k : String)
    (v : α) (h : mlookup m k = none) : minsert m k v = m ++ [(k, v)] := by
  induction m with
  | nil => simp [minsert]
  | cons p rest ih =>
    obtain ⟨k2, w⟩ := p
    by_cases h2 : k2 = k
    · simp [mlookup, h2] at h
    · simp [mlookup, h2] at h
      simp [minsert, h2, ih h]

/-! ## Section-validation lemmas -/

theorem sectionValidate_eq_foldl (values : FormValues)
    (fields : List FormField) :
    sectionValidate values fields = fields.foldl (svStep values) (true, []) :=
  rfl

theorem svStep_of_pass (values : FormValues) (acc : Bool × FormErrors)
    (f : FormField) (h : validateField values f = "") :
    svStep values acc f = acc := by
  simp [svStep, h]

theorem svStep_of_fail (values : FormValues) (acc : Bool × FormErrors)
    (f : FormField) (h : validateField values f ≠ "") :
    svStep values acc f = (false, minsert acc.2 f.fieldId (validateField values f)) := by
  simp [svStep, h]

theorem sectionValidate_foldl_fst (values : FormValues) :
    ∀ (fields : List FormField) (b : Bool) (m : FormErrors),
      ((fields.foldl (svStep values) (b, m)).1 = true) ↔
      (b = true ∧ ∀ f ∈ fields, validateField values f = "") := by
  intro fields
  induction fields with
  | nil => intro b m; simp
  | cons f rest ih =>
    intro b m
    by_cases h : validateField values f = ""
    · rw [List.foldl_cons, svStep_of_pass values _ f h, ih]
      simp [h]
    · rw [List.foldl_cons, svStep_of_fail values _ f h, ih]
      simp [h]

theorem sectionValidate_foldl_snd (values : FormValues) :
    ∀ (fields : List FormField) (b : Bool) (m : FormErrors),
      (fields.map FormField.fieldId).Nodup →
      (∀ f ∈ fields, mlookup m f.fieldId = none) →
      (fields.foldl (svStep values) (b, m)).2 =
        m ++ fields.filterMap (fieldError values) := by
  intro fields
  induction fields with
  | nil => intro b m _ _; simp [List.filterMap]
  | cons f rest ih =>
    intro b m hnd hm
    have hndf : f.fieldId ∉ rest.map FormField.fieldId := by
      simpa using (List.nodup_cons.mp hnd).1
    have hndr : (rest.map FormField.fieldId).Nodup := (List.nodup_cons.mp hnd).2
    have hmf : mlookup m f.fieldId = none := hm f (by simp)
    by_cases h : validateField values f = ""
    · rw [List.foldl_cons, svStep_of_pass values _ f h,
        ih b m hndr (fun g hg => hm g (by simp [hg]))]
      simp [List.filterMap_cons, fieldError, h]
    · rw [List.foldl_cons, svStep_of_fail values _ f h]
      have hins : minsert m f.fieldId (validateField values f) =
          m ++ [(f.fieldId, validateField values f)] :=
        minsert_of_lookup_none m f.fieldId _ hmf
      rw [ih false _ hndr]
      · rw [hins, List.append_assoc]
        simp [List.filterMap_cons, fieldError, h]
      · intro g hg
        rw [hins, mlookup_append]
        have hne : f.fieldId ≠ g.fieldId := by
          intro he
          exact hndf (he ▸ List.mem_map_of_mem FormField.fieldId hg)
        simp [hm g (by simp [hg]), mlookup, hne]

theorem sectionValidate_fst (values : FormValues) (fields : List FormField) :
    (sectionValidate values fields).1 = true ↔
      ∀ f ∈ fields, validateField values f = "" := by
  rw [sectionValidate_eq_foldl, sectionValidate_foldl_fst]
  simp

theorem sectionValidate_snd (values : FormValues) (fields : List FormField)
    (hnd : (fields.map FormField.fieldId).Nodup) :
    (sectionValidate values fields).2 = fields.filterMap (fieldError values) := by
  rw [sectionValidate_eq_foldl,
    sectionValidate_foldl_snd values fields true [] hnd (fun _ _ => rfl)]
  simp

theorem mlookup_filterMap_of_not_mem (values : FormValues)
    (fields : List FormField) (fid : String)
    (h : ∀ g ∈ fields, g.fieldId ≠ fid) :
    mlookup (fields.filterMap (fieldError values)) fid = none := by
  induction fields with
  | nil => simp [mlookup]
  | cons g rest ih =>
    have hg : g.fieldId ≠ fid := h g (by simp)
    by_cases hmsg : validateField values g = ""
    · simp only [List.filterMap_cons, fieldError, if_pos hmsg]
      exact ih (fun g2 hg2 => h g2 (by simp [hg2]))
    · simp only [List.filterMap_cons, fieldError, if_neg hmsg]
      simp only [mlookup, if_neg hg]
      exact ih (fun g2 hg2 => h g2 (by simp [hg2]))

theorem mlookup_filterMap_of_mem (values : FormValues)
    (fields : List FormField)
    (hnd : (fields.map FormField.fieldId).Nodup) :
    ∀ f ∈ fields,
      mlookup (fields.filterMap (fieldError values)) f.fieldId =
        (if validateField values f = "" then none
         else some (validateField values f)) := by
  induction fields with
  | nil => intro f hf; simp at hf
  | cons g rest ih =>
    intro f hf
    have hndg : g.fieldId ∉ rest.map FormField.fieldId := by
      simpa using (List.nodup_cons.mp hnd).1
    have hndr : (rest.map FormField.fieldId).Nodup := (List.nodup_cons.mp hnd).2
    rcases List.mem_cons.mp hf with hfg | hfr
    · subst hfg
      by_cases hmsg : validateField values f = ""
      · simp only [List.filterMap_cons, fieldError, if_pos hmsg]
        rw [mlookup_filterMap_of_not_mem values rest f.fieldId
          (fun g2 hg2 he => hndg (he ▸ List.mem_map_of_mem FormField.fieldId hg2))]
      · simp only [List.filterMap_cons, fieldError, if_neg hmsg]
        simp [mlookup, hmsg]
    · have hne : g.fieldId ≠ f.fieldId := by
        intro he
        exact hndg (he ▸ List.mem_map_of_mem FormField.fieldId hfr)
      by_cases hmsg : validateField values g = ""
      · simp only [List.filterMap_cons, fieldError, if_pos hmsg]
        exact ih hndr f hfr
      · simp only [List.filterMap_cons, fieldError, if_neg hmsg]
        simp only [mlookup, if_neg hne]
        exact ih hndr f hfr

theorem sectionValidate_fst_iff_snd_nil (values : FormValues)
    (fields : List FormField)
    (hnd : (fields.map FormField.fieldId).Nodup) :
    ((sectionValidate values fields).1 = true ↔
      (sectionValidate values fields).2 = []) := by
  rw [sectionValidate_fst, sectionValidate_snd values fields hnd,
    List.filterMap_eq_nil_iff]
  constructor
  · intro h f hf
    simp [fieldError, h f hf]
  · intro h f hf
    have := h f hf
    by_cases hmsg : validateField values f = ""
    · exact hmsg
    · simp [fieldError, hmsg] at this

theorem mlookup_mem {α : Type} (m : List (String × α)) (k : String) (v : α)
    (h : mlookup m k = some v) : (k, v) ∈ m := by
  induction m with
  | nil => simp [mlookup] at h
  | cons p rest ih =>
    obtain ⟨k2, w⟩ := p
    by_cases h2 : k2 = k
    · subst h2
      simp [mlookup] at h
      simp [h]
    · simp [mlookup, h2] at h
      exact List.mem_cons_of_mem _ (ih h)

/-! ## Claim theorems -/

/-- C1: for every loaded schema and every in-range section index,
`validateSection` evaluates exactly the fields of that section, builds a
fresh error map with an entry for a fieldId iff that field's rule produced a
non-empty message, replaces the whole previous error map with it (entries
for fields outside the section — whatever was in the previous map — are
gone), and returns `true` iff the fresh map is empty. -/
theorem claim_c1_section_validation_fresh_map (schema : FormSchema)
    (st : FormState) (idx : Nat) (sec : Section)
    (hsec : schema.sections[idx]? = some sec)
    (hnd : (sec.fields.map FormField.fieldId).Nodup) :
    ∃ ok st2, validateSectionRun schema st idx = some (ok, st2) ∧
      st2.formValues = st.formValues ∧
      st2.currentSectionIndex = st.currentSectionIndex ∧
      st2.showSubmissionModal = st.showSubmissionModal ∧
      (∀ f ∈ sec.fields,
        mlookup st2.formErrors f.fieldId =
          (if validateField st.formValues f = "" then none
           else some (validateField st.formValues f))) ∧
      (∀ fid : String, (∀ f ∈ sec.fields, f.fieldId ≠ fid) →
        mlookup st2.formErrors fid = none) ∧
      (ok = true ↔ st2.formErrors = []) := by
  refine ⟨(sectionValidate st.formValues sec.fields).1,
    { st with formErrors := (sectionValidate st.formValues sec.fields).2 },
    ?_, rfl, rfl, rfl, ?_, ?_, ?_⟩
  · simp [validateSectionRun, hsec]
  · intro f hf
    show mlookup (sectionValidate st.formValues sec.fields).2 f.fieldId = _
    rw [sectionValidate_snd st.formValues sec.fields hnd]
    exact mlookup_filterMap_of_mem st.formValues sec.fields hnd f hf
  · intro fid hfid
    show mlookup (sectionValidate st.formValues sec.fields).2 fid = none
    rw [sectionValidate_snd st.formValues sec.fields hnd]
    exact mlookup_filterMap_of_not_mem st.formValues sec.fields fid hfid
  · exact sectionValidate_fst_iff_snd_nil st.formValues sec.fields hnd

theorem claim_c1_section_validation_fresh_map_witness :
    ∃ ok st2, validateSectionRun schemaW stateA 0 = some (ok, st2) ∧
      st2.formValues = stateA.formValues ∧
      st2.currentSectionIndex = stateA.currentSectionIndex ∧
      st2.showSubmissionModal = stateA.showSubmissionModal ∧
      (∀ f ∈ sectionOne.fields,
        mlookup st2.formErrors f.fieldId =
          (if validateField stateA.formValues f = "" then none
           else some (validateField stateA.formValues f))) ∧
      (∀ fid : String, (∀ f ∈ sectionOne.fields, f.fieldId ≠ fid) →
        mlookup st2.formErrors fid = none) ∧
      (ok = true ↔ st2.formErrors = []) :=
  claim_c1_section_validation_fresh_map schemaW stateA 0 sectionOne rfl
    (by decide)

/-- C5: "Previous" never touches validation state (values and errors are
unchanged for every state), its control is disabled exactly at section
index 0, and with a positive index it decrements the index by one (at index
0 it stays put). -/
theorem claim_c5_previous_never_validates (st : FormState) :
    (handlePrevious st).formErrors = st.formErrors ∧
    (handlePrevious st).formValues = st.formValues ∧
    (handlePrevious st).showSubmissionModal = st.showSubmissionModal ∧
    (previousDisabled st.currentSectionIndex = true ↔
      st.currentSectionIndex = 0) ∧
    (0 < st.currentSectionIndex →
      (handlePrevious st).currentSectionIndex = st.currentSectionIndex - 1) ∧
    (st.currentSectionIndex = 0 →
      (handlePrevious st).currentSectionIndex = 0) := by
  unfold handlePrevious previousDisabled
  by_cases h : st.currentSectionIndex > 0
  · rw [if_pos h]
    exact ⟨rfl, rfl, rfl, by simp, fun _ => rfl,
      fun h0 => by show st.currentSectionIndex - 1 = 0; omega⟩
  · rw [if_neg h]
    exact ⟨rfl, rfl, rfl, by simp, fun hp => absurd hp h, fun h0 => h0⟩

theorem claim_c5_previous_never_validates_witness :
    (handlePrevious stateLast).formErrors = stateLast.formErrors ∧
    (handlePrevious stateLast).formValues = stateLast.formValues ∧
    (handlePrevious stateLast).showSubmissionModal =
      stateLast.showSubmissionModal ∧
    (previousDisabled stateLast.currentSectionIndex = true ↔
      stateLast.currentSectionIndex = 0) ∧
    (0 < stateLast.currentSectionIndex →
      (handlePrevious stateLast).currentSectionIndex =
        stateLast.currentSectionIndex - 1) ∧
    (stateLast.currentSectionIndex = 0 →
      (handlePrevious stateLast).currentSectionIndex = 0) :=
  claim_c5_previous_never_validates stateLast

/-- C9: the login submit shows exactly the message "Both Roll Number and
Name are required" and issues no `createUser` call when either trimmed field
is blank, and calls `createUser` exactly when both are non-blank — i.e. the
source handler coincides with the specification-side description
`loginSubmitSpec`. -/
theorem claim_c9_login_blank_validation (u : User) :
    loginSubmit u = loginSubmitSpec u := by
  unfold loginSubmit loginSubmitSpec
  by_cases h1 : u.rollNumber.trim = "" <;> by_cases h2 : u.name.trim = "" <;>
    simp [h1, h2]

/-- C10: a required single checkbox (type `checkbox`, no `options`) whose
value is the boolean `false` passes the per-field rule: the required check
only classifies `undefined`, the empty string and empty arrays as missing,
and `false` is none of these. -/
theorem claim_c10_required_checkbox_false_passes (values : FormValues)
    (f : FormField) (_hreq : f.required = true) (_htype : f.type = "checkbox")
    (_hopts : f.options = none)
    (hval : mlookup values f.fieldId = some (Value.bool false)) :
    validateField values f = "" := by
  unfold validateField
  rw [hval]
  have h1 : requiredMissing (some (Value.bool false)) = false := rfl
  have h2 : isAbsentOrEmptyStr (some (Value.bool false)) = false := rfl
  simp only [h1, h2, Bool.and_false, Bool.false_eq_true, if_false]
  cases hmin : f.minLength <;> cases hmax : f.maxLength <;>
    simp [minLengthError, maxLengthError, hmin, hmax]

theorem claim_c10_required_checkbox_false_passes_witness :
    validateField valuesAgreeFalse fieldAgreeRequired = "" :=
  claim_c10_required_checkbox_false_passes valuesAgreeFalse
    fieldAgreeRequired rfl rfl rfl rfl

theorem handleFieldChange_formValues (st : FormState) (fieldId : String)
    (v : Value) :
    (handleFieldChange st fieldId v).formValues =
      minsert st.formValues fieldId v := rfl

theorem handleFieldChange_formErrors (st : FormState) (fieldId : String)
    (v : Value) :
    (handleFieldChange st fieldId v).formErrors =
      match mlookup st.formErrors fieldId with
      | some msg =>
        if msg = "" then st.formErrors else merase st.formErrors fieldId
      | none => st.formErrors := rfl

theorem handleFieldChange_index (st : FormState) (fieldId : String)
    (v : Value) :
    (handleFieldChange st fieldId v).currentSectionIndex =
      st.currentSectionIndex := rfl

theorem handleFieldChange_modal (st : FormState) (fieldId : String)
    (v : Value) :
    (handleFieldChange st fieldId v).showSubmissionModal =
      st.showSubmissionModal := rfl

/-- C4: editing a field stores the new value under its fieldId, removes that
field's error entry if one exists (whatever the new value is), and leaves
every other field's value and error entries untouched.  The hypothesis that
no stored error message is the empty string is an invariant of the program:
`sectionValidate` only ever inserts non-empty messages. -/
theorem claim_c4_edit_clears_error (st : FormState) (fieldId : String)
    (v : Value) (hwf : ∀ p ∈ st.formErrors, p.2 ≠ "") :
    mlookup (handleFieldChange st fieldId v).formValues fieldId = some v ∧
    mlookup (handleFieldChange st fieldId v).formErrors fieldId = none ∧
    (handleFieldChange st fieldId v).currentSectionIndex =
      st.currentSectionIndex ∧
    (handleFieldChange st fieldId v).showSubmissionModal =
      st.showSubmissionModal ∧
    (∀ fid : String, fid ≠ fieldId →
      mlookup (handleFieldChange st fieldId v).formValues fid =
        mlookup st.formValues fid ∧
      mlookup (handleFieldChange st fieldId v).formErrors fid =
        mlookup st.formErrors fid) := by
  cases herr : mlookup st.formErrors fieldId with
  | none =>
    refine ⟨mlookup_minsert_self _ _ _, ?_, rfl, rfl, ?_⟩
    · rw [handleFieldChange_formErrors, herr]
      exact herr
    · intro fid hne
      refine ⟨mlookup_minsert_ne _ _ _ _ hne, ?_⟩
      rw [handleFieldChange_formErrors, herr]
  | some msg =>
    have hmsg : msg ≠ "" := hwf (fieldId, msg) (mlookup_mem _ _ _ herr)
    refine ⟨mlookup_minsert_self _ _ _, ?_, rfl, rfl, ?_⟩
    · rw [handleFieldChange_formErrors, herr]
      show mlookup
        (if msg = "" then st.formErrors else merase st.formErrors fieldId)
        fieldId = none
      rw [if_neg hmsg]
      exact mlookup_merase_self _ _
    · intro fid hne
      refine ⟨mlookup_minsert_ne _ _ _ _ hne, ?_⟩
      rw [handleFieldChange_formErrors, herr]
      show mlookup
        (if msg = "" then st.formErrors else merase st.formErrors fieldId)
        fid = mlookup st.formErrors fid
      rw [if_neg hmsg]
      exact mlookup_merase_ne _ _ _ hne

theorem claim_c4_edit_clears_error_witness :
    mlookup (handleFieldChange stateWithError "name" (Value.str "X")).formValues
        "name" = some (Value.str "X") ∧
    mlookup (handleFieldChange stateWithError "name" (Value.str "X")).formErrors
        "name" = none ∧
    (handleFieldChange stateWithError "name" (Value.str "X")).currentSectionIndex =
      stateWithError.currentSectionIndex ∧
    (handleFieldChange stateWithError "name" (Value.str "X")).showSubmissionModal =
      stateWithError.showSubmissionModal ∧
    (∀ fid : String, fid ≠ "name" →
      mlookup (handleFieldChange stateWithError "name" (Value.str "X")).formValues
          fid = mlookup stateWithError.formValues fid ∧
      mlookup (handleFieldChange stateWithError "name" (Value.str "X")).formErrors
          fid = mlookup stateWithError.formErrors fid) :=
  claim_c4_edit_clears_error stateWithError "name" (Value.str "X") (by decide)

/-- C3 counterexample: on the duplicate-free sequence `["a", "b"]`, toggling
`"a"` twice yields `["b", "a"]`, not the original order — the removed option
is re-appended at the end, so the claim's "prior order" part is false. -/
theorem claim_c3_double_toggle_counterexample :
    handleCheckboxGroupChange (handleCheckboxGroupChange ["a", "b"] "a") "a" ≠
      ["a", "b"] := by
  decide

theorem filter_ne_of_not_mem (xs : List String) (v : String) (h : v ∉ xs) :
    xs.filter (fun w => w ≠ v) = xs := by
  rw [List.filter_eq_self]
  intro a ha
  simp only [decide_eq_true_eq]
  exact fun he => h (he ▸ ha)

theorem filter_ne_append_singleton_perm (xs : List String) (v : String)
    (hnd : xs.Nodup) (hv : v ∈ xs) :
    (xs.filter (fun w => w ≠ v) ++ [v]).Perm xs := by
  induction xs with
  | nil => simp at hv
  | cons x rest ih =>
    rcases List.mem_cons.mp hv with hxv | hvr
    · subst hxv
      have hnr : v ∉ rest := (List.nodup_cons.mp hnd).1
      rw [List.filter_cons]
      have hc : decide (v ≠ v) = false := by simp
      rw [hc]
      simp only [Bool.false_eq_true, if_false]
      rw [filter_ne_of_not_mem rest v hnr]
      exact List.perm_append_singleton v rest
    · have hx : x ≠ v := by
        intro he
        exact (List.nodup_cons.mp hnd).1 (he ▸ hvr)
      have hndr : rest.Nodup := (List.nodup_cons.mp hnd).2
      rw [List.filter_cons]
      have hc : decide (x ≠ v) = true := by simp [hx]
      rw [hc]
      simp only [if_true]
      rw [List.cons_append]
      exact (ih hndr hvr).cons x

theorem not_mem_filter_ne (xs : List String) (v : String) :
    v ∉ xs.filter (fun w => w ≠ v) := by
  intro h
  have := List.of_mem_filter h
  simp at this

/-- C3 amended: toggling the same option value twice returns the sequence to
its prior contents (the result is a permutation of the original,
duplicate-free, sequence); the prior order is restored exactly when the
value was absent beforehand, while a present value is removed and then
re-appended, ending up at the end of the sequence. -/
theorem claim_c3_double_toggle_amended (xs : List String) (v : String)
    (hnd : xs.Nodup) :
    (handleCheckboxGroupChange (handleCheckboxGroupChange xs v) v).Perm xs ∧
    (v ∉ xs → handleCheckboxGroupChange (handleCheckboxGroupChange xs v) v = xs) ∧
    (v ∈ xs → handleCheckboxGroupChange (handleCheckboxGroupChange xs v) v =
      xs.filter (fun w => w ≠ v) ++ [v]) := by
  by_cases hv : v ∈ xs
  · have h1 : handleCheckboxGroupChange xs v = xs.filter (fun w => w ≠ v) := by
      simp [handleCheckboxGroupChange, hv]
    have hnv : v ∉ xs.filter (fun w => w ≠ v) := not_mem_filter_ne xs v
    have h2 : handleCheckboxGroupChange (xs.filter (fun w => w ≠ v)) v =
        xs.filter (fun w => w ≠ v) ++ [v] := by
      simp [handleCheckboxGroupChange, hnv]
    rw [h1, h2]
    exact ⟨filter_ne_append_singleton_perm xs v hnd hv,
      fun hna => absurd hv hna, fun _ => rfl⟩
  · have h1 : handleCheckboxGroupChange xs v = xs ++ [v] := by
      simp [handleCheckboxGroupChange, hv]
    have hvin : v ∈ xs ++ [v] := by simp
    have h2 : handleCheckboxGroupChange (xs ++ [v]) v =
        (xs ++ [v]).filter (fun w => w ≠ v) := by
      simp [handleCheckboxGroupChange, hvin]
    have h3 : (xs ++ [v]).filter (fun w => w ≠ v) = xs := by
      rw [List.filter_append, filter_ne_of_not_mem xs v hv]
      simp
    rw [h1, h2, h3]
    exact ⟨List.Perm.refl xs, fun _ => rfl, fun hin => absurd hin hv⟩

theorem claim_c3_double_toggle_amended_witness :
    (handleCheckboxGroupChange (handleCheckboxGroupChange ["a", "b"] "a")
      "a").Perm ["a", "b"] ∧
    ("a" ∉ (["a", "b"] : List String) →
      handleCheckboxGroupChange (handleCheckboxGroupChange ["a", "b"] "a") "a" =
        ["a", "b"]) ∧
    ("a" ∈ (["a", "b"] : List String) →
      handleCheckboxGroupChange (handleCheckboxGroupChange ["a", "b"] "a") "a" =
        (["a", "b"] : List String).filter (fun w => w ≠ "a") ++ ["a"]) :=
  claim_c3_double_toggle_amended ["a", "b"] "a" (by decide)

theorem initStep_eq (m2 : FormValues) (f : FormField) :
    (if f.type = "checkbox" ∧ f.options.isSome then
      minsert m2 f.fieldId (Value.list [])
     else if f.type = "checkbox" ∧ ¬ f.options.isSome then
      minsert m2 f.fieldId (Value.bool false)
     else minsert m2 f.fieldId (Value.str "")) =
    minsert m2 f.fieldId (initValueFor f) := by
  by_cases h1 : f.type = "checkbox" <;> by_cases h2 : f.options.isSome <;>
    simp [initValueFor, h1, h2]

theorem initialValues_eq (schema : FormSchema) :
    initialValues schema = schema.sections.foldl
      (fun m sec => sec.fields.foldl
        (fun m2 f => minsert m2 f.fieldId (initValueFor f)) m) [] := by
  unfold initialValues
  congr 1
  funext m sec
  congr 1
  funext m2 f
  exact initStep_eq m2 f

theorem fields_foldl_init_preserve :
    ∀ (fields : List FormField) (m : FormValues) (fid : String),
      (∀ f ∈ fields, f.fieldId ≠ fid) →
      mlookup (fields.foldl
        (fun m2 f => minsert m2 f.fieldId (initValueFor f)) m) fid =
        mlookup m fid := by
  intro fields
  induction fields with
  | nil => intro m fid _; rfl
  | cons f rest ih =>
    intro m fid h
    rw [List.foldl_cons, ih _ fid (fun g hg => h g (by simp [hg])),
      mlookup_minsert_ne m f.fieldId fid _ (fun he => h f (by simp) he.symm)]

theorem fields_foldl_init_hit :
    ∀ (fields : List FormField) (m : FormValues),
      (fields.map FormField.fieldId).Nodup →
      ∀ f ∈ fields,
        mlookup (fields.foldl
          (fun m2 f2 => minsert m2 f2.fieldId (initValueFor f2)) m) f.fieldId =
          some (initValueFor f) := by
  intro fields
  induction fields with
  | nil => intro m _ f hf; simp at hf
  | cons g rest ih =>
    intro m hnd f hf
    have hndg : g.fieldId ∉ rest.map FormField.fieldId := by
      simpa using (List.nodup_cons.mp hnd).1
    have hndr : (rest.map FormField.fieldId).Nodup := (List.nodup_cons.mp hnd).2
    rcases List.mem_cons.mp hf with hfg | hfr
    · subst hfg
      rw [List.foldl_cons, fields_foldl_init_preserve rest _ f.fieldId
        (fun g2 hg2 he => hndg (he ▸ List.mem_map_of_mem FormField.fieldId hg2))]
      exact mlookup_minsert_self m f.fieldId _
    · exact ih _ hndr f hfr

theorem sections_foldl_init_preserve :
    ∀ (sections : List Section) (m : FormValues) (fid : String),
      (∀ sec ∈ sections, ∀ f ∈ sec.fields, f.fieldId ≠ fid) →
      mlookup (sections.foldl
        (fun m sec => sec.fields.foldl
          (fun m2 f => minsert m2 f.fieldId (initValueFor f)) m) m) fid =
        mlookup m fid := by
  intro sections
  induction sections with
  | nil => intro m fid _; rfl
  | cons s rest ih =>
    intro m fid h
    rw [List.foldl_cons, ih _ fid (fun sec hsec => h sec (by simp [hsec])),
      fields_foldl_init_preserve s.fields m fid (h s (by simp))]

theorem mem_sections_flat (sections : List Section) (sec : Section)
    (f : FormField) (hsec : sec ∈ sections) (hf : f ∈ sec.fields) :
    f ∈ sections.foldr (fun sec2 acc => sec2.fields ++ acc) [] := by
  induction sections with
  | nil => simp at hsec
  | cons s rest ih =>
    rw [List.foldr_cons, List.mem_append]
    rcases List.mem_cons.mp hsec with hss | hsr
    · exact Or.inl (hss ▸ hf)
    · exact Or.inr (ih hsr)

theorem sections_foldl_init_hit :
    ∀ (sections : List Section) (m : FormValues),
      ((sections.foldr (fun sec acc => sec.fields ++ acc) []).map
        FormField.fieldId).Nodup →
      ∀ sec ∈ sections, ∀ f ∈ sec.fields,
        mlookup (sections.foldl
          (fun m sec2 => sec2.fields.foldl
            (fun m2 f2 => minsert m2 f2.fieldId (initValueFor f2)) m) m)
          f.fieldId = some (initValueFor f) := by
  intro sections
  induction sections with
  | nil => intro m _ sec hsec; simp at hsec
  | cons s rest ih =>
    intro m hnd sec hsec f hf
    rw [List.foldr_cons, List.map_append, List.nodup_append] at hnd
    obtain ⟨hnds, hndr, hdisj⟩ := hnd
    rcases List.mem_cons.mp hsec with hss | hsr
    · subst hss
      rw [List.foldl_cons]
      rw [sections_foldl_init_preserve rest _ f.fieldId ?_]
      · exact fields_foldl_init_hit sec.fields m hnds f hf
      · intro sec2 hsec2 g hg he
        exact hdisj (List.mem_map_of_mem FormField.fieldId hf)
          (he ▸ List.mem_map_of_mem FormField.fieldId
            (mem_sections_flat rest sec2 g hsec2 hg))
    · rw [List.foldl_cons]
      exact ih _ hndr sec hsr f hf

/-- C7: after the schema fetch, every fieldId of every section has an entry
in the initial value map, holding the empty list for an option-bearing
checkbox, `false` for a plain checkbox, and the empty string for every other
field type; stated under the schema invariant that fieldIds are unique
across the whole schema. -/
theorem claim_c7_initial_values_typed_empty (schema : FormSchema)
    (hnd : ((schemaFields schema).map FormField.fieldId).Nodup) :
    ∀ sec ∈ schema.sections, ∀ f ∈ sec.fields,
      mlookup (initialValues schema) f.fieldId = some (initValueFor f) := by
  intro sec hsec f hf
  rw [initialValues_eq]
  exact sections_foldl_init_hit schema.sections []
    (by simpa [schemaFields] using hnd) sec hsec f hf

theorem claim_c7_initial_values_typed_empty_witness :
    mlookup (initialValues schemaW) fieldHobbies.fieldId =
      some (initValueFor fieldHobbies) :=
  claim_c7_initial_values_typed_empty schemaW (by decide) sectionTwo
    (by decide) fieldHobbies (by decide)

/-- C6: "Next" on a non-last section always runs section validation on the
current section (the error map becomes the fresh map); on success the index
advances by exactly one and the resulting error map is empty; on failure the
index is unchanged and the error map holds each failing field's message. -/
theorem claim_c6_next_gated_by_validation (schema : FormSchema)
    (st : FormState) (sec : Section)
    (hsec : schema.sections[st.currentSectionIndex]? = some sec)
    (hnotlast : st.currentSectionIndex < schema.sections.length - 1)
    (hnd : (sec.fields.map FormField.fieldId).Nodup) :
    (handleNext schema st).formValues = st.formValues ∧
    (handleNext schema st).formErrors =
      (sectionValidate st.formValues sec.fields).2 ∧
    ((∀ f ∈ sec.fields, validateField st.formValues f = "") →
      (handleNext schema st).currentSectionIndex = st.currentSectionIndex + 1 ∧
      (handleNext schema st).formErrors = []) ∧
    ((¬ ∀ f ∈ sec.fields, validateField st.formValues f = "") →
      (handleNext schema st).currentSectionIndex = st.currentSectionIndex ∧
      (∀ f ∈ sec.fields, validateField st.formValues f ≠ "" →
        mlookup (handleNext schema st).formErrors f.fieldId =
          some (validateField st.formValues f))) := by
  have hrun : validateSectionRun schema st st.currentSectionIndex =
      some ((sectionValidate st.formValues sec.fields).1,
        { st with formErrors := (sectionValidate st.formValues sec.fields).2 }) := by
    simp [validateSectionRun, hsec]
  by_cases hok : (sectionValidate st.formValues sec.fields).1 = true
  · have hnext : handleNext schema st =
        { st with
          formErrors := (sectionValidate st.formValues sec.fields).2,
          currentSectionIndex := st.currentSectionIndex + 1 } := by
      unfold handleNext
      rw [hrun]
      simp [hok, hnotlast]
    rw [hnext]
    refine ⟨rfl, rfl, fun _ => ⟨rfl, ?_⟩, fun hnall => ?_⟩
    · exact (sectionValidate_fst_iff_snd_nil st.formValues sec.fields hnd).mp hok
    · exact absurd ((sectionValidate_fst st.formValues sec.fields).mp hok) hnall
  · have hfst : (sectionValidate st.formValues sec.fields).1 = false :=
      Bool.eq_false_iff.mpr hok
    have hnext : handleNext schema st =
        { st with formErrors := (sectionValidate st.formValues sec.fields).2 } := by
      unfold handleNext
      rw [hrun]
      simp [hfst]
    rw [hnext]
    refine ⟨rfl, rfl, fun hall =>
      absurd ((sectionValidate_fst st.formValues sec.fields).mpr hall) hok,
      fun _ => ⟨rfl, ?_⟩⟩
    intro f hf hmsg
    show mlookup (sectionValidate st.formValues sec.fields).2 f.fieldId = _
    rw [sectionValidate_snd st.formValues sec.fields hnd]
    have := mlookup_filterMap_of_mem st.formValues sec.fields hnd f hf
    rw [if_neg hmsg] at this
    exact this

theorem claim_c6_next_gated_by_validation_witness :
    (handleNext schemaW stateA).formValues = stateA.formValues ∧
    (handleNext schemaW stateA).formErrors =
      (sectionValidate stateA.formValues sectionOne.fields).2 ∧
    ((∀ f ∈ sectionOne.fields, validateField stateA.formValues f = "") →
      (handleNext schemaW stateA).currentSectionIndex =
        stateA.currentSectionIndex + 1 ∧
      (handleNext schemaW stateA).formErrors = []) ∧
    ((¬ ∀ f ∈ sectionOne.fields, validateField stateA.formValues f = "") →
      (handleNext schemaW stateA).currentSectionIndex =
        stateA.currentSectionIndex ∧
      (∀ f ∈ sectionOne.fields, validateField stateA.formValues f ≠ "" →
        mlookup (handleNext schemaW stateA).formErrors f.fieldId =
          some (validateField stateA.formValues f))) :=
  claim_c6_next_gated_by_validation schemaW stateA sectionOne rfl
    (by decide) (by decide)

theorem formatValue_cases (ov : Option Value) :
    formatValue ov =
      match ov with
      | some (Value.list l) => String.intercalate ", " l
      | some (Value.bool b) => if b then "Yes" else "No"
      | some (Value.str s) => if s = "" then "-" else s
      | none => "-" := by
  rcases ov with _ | v
  · rfl
  · cases v <;> rfl

/-- C8: when submit passes validation on the current (last) section, the
submission modal opens and shows, for every section and field, the current
value formatted as: lists joined by comma, booleans as "Yes"/"No", empty or
undefined values as "-".  Nothing else happens to the state: values and
section index are unchanged, and the embedding is pure — no transmission or
persistence exists in `handleSubmit`. -/
theorem claim_c8_submit_opens_summary (schema : FormSchema) (st : FormState)
    (sec : Section)
    (hsec : schema.sections[st.currentSectionIndex]? = some sec)
    (hok : ∀ f ∈ sec.fields, validateField st.formValues f = "") :
    (handleSubmit schema st).showSubmissionModal = true ∧
    (handleSubmit schema st).formValues = st.formValues ∧
    (handleSubmit schema st).currentSectionIndex = st.currentSectionIndex ∧
    renderSummary schema (handleSubmit schema st).formValues =
      schema.sections.map (fun s2 =>
        (s2.title, s2.fields.map (fun f =>
          (f.label,
            match mlookup st.formValues f.fieldId with
            | some (Value.list l) => String.intercalate ", " l
            | some (Value.bool b) => if b then "Yes" else "No"
            | some (Value.str s3) => if s3 = "" then "-" else s3
            | none => "-")))) := by
  have hfst : (sectionValidate st.formValues sec.fields).1 = true :=
    (sectionValidate_fst st.formValues sec.fields).mpr hok
  have hrun : validateSectionRun schema st st.currentSectionIndex =
      some ((sectionValidate st.formValues sec.fields).1,
        { st with formErrors := (sectionValidate st.formValues sec.fields).2 }) := by
    simp [validateSectionRun, hsec]
  have hsub : handleSubmit schema st =
      { st with
        formErrors := (sectionValidate st.formValues sec.fields).2,
        showSubmissionModal := true } := by
    unfold handleSubmit
    rw [hrun]
    simp [hfst]
  rw [hsub]
  refine ⟨rfl, rfl, rfl, ?_⟩
  show renderSummary schema st.formValues = _
  unfold renderSummary
  simp only [formatValue_cases]

theorem claim_c8_submit_opens_summary_witness :
    (handleSubmit schemaW stateLast).showSubmissionModal = true ∧
    (handleSubmit schemaW stateLast).formValues = stateLast.formValues ∧
    (handleSubmit schemaW stateLast).currentSectionIndex =
      stateLast.currentSectionIndex ∧
    renderSummary schemaW (handleSubmit schemaW stateLast).formValues =
      schemaW.sections.map (fun s2 =>
        (s2.title, s2.fields.map (fun f =>
          (f.label,
            match mlookup stateLast.formValues f.fieldId with
            | some (Value.list l) => String.intercalate ", " l
            | some (Value.bool b) => if b then "Yes" else "No"
            | some (Value.str s3) => if s3 = "" then "-" else s3
            | none => "-")))) :=
  claim_c8_submit_opens_summary schemaW stateLast sectionTwo rfl (by decide)

/-- C2 counterexample: a non-required text field with `maxLength := 0`
holding `"ab"`.  The claim's reading ("maxLength is set and the length
exceeds maxLength → error") demands "Maximum length is 0 characters", but
the code's `field.maxLength && ...` treats the bound `0` as falsy and
returns no error. -/
theorem claim_c2_per_field_rule_counterexample :
    validateField valuesMaxZero fieldMaxZero ≠
      validateFieldSpec valuesMaxZero fieldMaxZero := by
  decide

/-- C2 amended: the per-field rule behaves exactly as claimed except that a
`minLength` / `maxLength` bound of `0` is treated as unset and an empty
custom validation message falls back to the default required message (JS
truthiness): `validateField` coincides with the amended spec-side
description. -/
theorem claim_c2_per_field_rule_amended (values : FormValues)
    (field : FormField) :
    validateField values field = validateFieldAmended values field := by
  simp only [validateField, validateFieldAmended]
  cases hv : mlookup values field.fieldId with
  | none =>
    cases hr : field.required <;>
      simp [requiredMissing, requiredMessage, isAbsentOrEmptyStr, hr]
  | some v =>
    cases v with
    | str s =>
      by_cases hs : s = ""
      · subst hs
        cases hr : field.required <;>
          simp [requiredMissing, requiredMessage, isAbsentOrEmptyStr, hr]
      · have h1 : requiredMissing (some (Value.str s)) = false := by
          simp [requiredMissing, hs]
        have h2 : isAbsentOrEmptyStr (some (Value.str s)) = false := by
          simp [isAbsentOrEmptyStr, hs]
        have h3 : ¬(some (Value.str s) = none ∨
            some (Value.str s) = some (Value.str "") ∨
            some (Value.str s) = some (Value.list [])) := by
          simp [hs]
        have h4 : ¬(some (Value.str s) = none ∨
            some (Value.str s) = some (Value.str "")) := by
          simp [hs]
        simp only [h1, h2, h3, h4, Bool.and_false, Bool.false_eq_true,
          if_false, and_false, false_and, Bool.false_eq_true]
        cases hmin : field.minLength with
        | none =>
          cases hmax : field.maxLength with
          | none => simp [minLengthError, maxLengthError, hmin, hmax]
          | some k =>
            by_cases hck : k ≠ 0 ∧ s.length > k <;>
              simp [minLengthError, maxLengthError, hmin, hmax, hck]
        | some n =>
          by_cases hcn : n ≠ 0 ∧ s.length < n
          · simp [minLengthError, hmin, hcn]
          · cases hmax : field.maxLength with
            | none => simp [minLengthError, maxLengthError, hmin, hmax, hcn]
            | some k =>
              by_cases hck : k ≠ 0 ∧ s.length > k <;>
                simp [minLengthError, maxLengthError, hmin, hmax, hcn, hck]
    | list l =>
      cases hr : field.required <;> cases l <;>
        cases hmin : field.minLength <;> cases hmax : field.maxLength <;>
          simp [requiredMissing, requiredMessage, isAbsentOrEmptyStr,
            minLengthError, maxLengthError, hr]
    | bool b =>
      cases hr : field.required <;>
        cases hmin : field.minLength <;> cases hmax : field.maxLength <;>
          simp [requiredMissing, requiredMessage, isAbsentOrEmptyStr,
            minLengthError, maxLengthError, hr]

end DynForm
